import Mathlib

/-!
Verification of the storage-facade-sessionstorage adapter (src/src/index.ts).

The adapter stores JS values in the browser's sessionStorage: each value is
serialized with JSON.stringify as a wrapper object with a single "value" field
and stored under the physical key "{name}-{key}"; an ordered registry of
logical keys is stored as a JSON string array under "__{name}-keys-array".

Modelling conventions:
- A JS runtime value (restricted to the JSON-expressible structured-cloneable
  shapes the adapter works with) is the inductive JsValue; the special value
  "undefined" is the constructor JsValue.undef.
- A stored string is modelled by its parsed JSON tree (inductive Json):
  JSON.stringify and JSON.parse are deterministic and injective on these trees,
  so equality of trees is equality of the stored strings byte for byte.
  jsonOfValue models JSON.stringify semantics (undefined is dropped from
  objects and becomes null in arrays); valueOfJson models JSON.parse.
- window.sessionStorage and window.localStorage are each a flat partial map
  from strings to stored trees (Strg); getItem returning none models the null
  return of the browser API.
- Thrown exceptions are modelled with Except: every operation returns the
  Except outcome together with the state as mutated up to the throw point.
- structuredClone is a deep copy; on immutable trees it is provably the
  identity (structuredClone_eq).
-/

/-- A parsed JSON document: the shape of every string the adapter stores. -/
inductive Json where
  | null : Json
  | bool (b : Bool) : Json
  | num (n : Int) : Json
  | str (s : String) : Json
  | arr (xs : List Json) : Json
  | obj (fields : List (String × Json)) : Json

/-- A JS runtime value handled by the adapter, including "undefined". -/
inductive JsValue where
  | undef : JsValue
  | null : JsValue
  | bool (b : Bool) : JsValue
  | num (n : Int) : JsValue
  | str (s : String) : JsValue
  | arr (xs : List JsValue) : JsValue
  | obj (fields : List (String × JsValue)) : JsValue

mutual

/-- JSON.stringify semantics on a JS value: "undefined" (and nothing else in
this value grammar) has no JSON representation and yields none. -/
def jsonOfValue : JsValue → Option Json
  | JsValue.undef => none
  | JsValue.null => some Json.null
  | JsValue.bool b => some (Json.bool b)
  | JsValue.num n => some (Json.num n)
  | JsValue.str s => some (Json.str s)
  | JsValue.arr xs => some (Json.arr (jsonOfElems xs))
  | JsValue.obj fs => some (Json.obj (jsonOfFields fs))

/-- JSON.stringify turns an "undefined" array element into null. -/
def jsonOfElems : List JsValue → List Json
  | [] => []
  | x :: xs =>
    (match jsonOfValue x with
      | none => Json.null
      | some j => j) :: jsonOfElems xs

/-- JSON.stringify drops an object field whose value is "undefined". -/
def jsonOfFields : List (String × JsValue) → List (String × Json)
  | [] => []
  | (k, v) :: fs =>
    match jsonOfValue v with
      | none => jsonOfFields fs
      | some j => (k, j) :: jsonOfFields fs

end

mutual

/-- JSON.parse semantics: a parsed tree read back as a JS value. -/
def valueOfJson : Json → JsValue
  | Json.null => JsValue.null
  | Json.bool b => JsValue.bool b
  | Json.num n => JsValue.num n
  | Json.str s => JsValue.str s
  | Json.arr xs => JsValue.arr (valuesOfJsons xs)
  | Json.obj fs => JsValue.obj (valuesOfJsonFields fs)

def valuesOfJsons : List Json → List JsValue
  | [] => []
  | x :: xs => valueOfJson x :: valuesOfJsons xs

def valuesOfJsonFields : List (String × Json) → List (String × JsValue)
  | [] => []
  | (k, v) :: fs => (k, valueOfJson v) :: valuesOfJsonFields fs

end

mutual

/-- Deep copy of a JS value (the structuredClone builtin used by the source). -/
def structuredClone : JsValue → JsValue
  | JsValue.undef => JsValue.undef
  | JsValue.null => JsValue.null
  | JsValue.bool b => JsValue.bool b
  | JsValue.num n => JsValue.num n
  | JsValue.str s => JsValue.str s
  | JsValue.arr xs => JsValue.arr (cloneElems xs)
  | JsValue.obj fs => JsValue.obj (cloneFields fs)

def cloneElems : List JsValue → List JsValue
  | [] => []
  | x :: xs => structuredClone x :: cloneElems xs

def cloneFields : List (String × JsValue) → List (String × JsValue)
  | [] => []
  | (k, v) :: fs => (k, structuredClone v) :: cloneFields fs

end

/-- On immutable value trees a deep copy changes nothing. -/
theorem structuredClone_eq (v : JsValue) : structuredClone v = v := by
  refine @JsValue.rec (fun v => structuredClone v = v)
    (fun xs => cloneElems xs = xs)
    (fun fs => cloneFields fs = fs)
    (fun p => structuredClone p.2 = p.2)
    ?_ ?_ ?_ ?_ ?_ ?_ ?_ ?_ ?_ ?_ ?_ ?_ v
  · simp [structuredClone]
  · simp [structuredClone]
  · intro b; simp [structuredClone]
  · intro n; simp [structuredClone]
  · intro s; simp [structuredClone]
  · intro xs ih; simp [structuredClone, ih]
  · intro fs ih; simp [structuredClone, ih]
  · simp [cloneElems]
  · intro x xs ihx ihxs; simp [cloneElems, ihx, ihxs]
  · simp [cloneFields]
  · intro p fs ihp ihfs
    cases p
    simp only [cloneFields]
    simp at ihp
    simp [ihp, ihfs]
  · intro k v ihv; simpa using ihv

mutual

/-- A value is clean when no "undefined" occurs strictly inside it, so the
JSON roundtrip reproduces it exactly.  The top-level value itself must not be
"undefined" either; the wrapper layer treats that case separately. -/
def cleanVal : JsValue → Bool
  | JsValue.undef => false
  | JsValue.null => true
  | JsValue.bool _ => true
  | JsValue.num _ => true
  | JsValue.str _ => true
  | JsValue.arr xs => cleanElems xs
  | JsValue.obj fs => cleanFields fs

def cleanElems : List JsValue → Bool
  | [] => true
  | x :: xs => cleanVal x && cleanElems xs

def cleanFields : List (String × JsValue) → Bool
  | [] => true
  | (_, v) :: fs => cleanVal v && cleanFields fs

end

/-- The JSON roundtrip is the identity on clean values. -/
theorem clean_roundtrip (v : JsValue) (h : cleanVal v = true) :
    ∃ j, jsonOfValue v = some j ∧ valueOfJson j = v := by
  refine @JsValue.rec
    (fun v => cleanVal v = true → ∃ j, jsonOfValue v = some j ∧ valueOfJson j = v)
    (fun xs => cleanElems xs = true → valuesOfJsons (jsonOfElems xs) = xs)
    (fun fs => cleanFields fs = true → valuesOfJsonFields (jsonOfFields fs) = fs)
    (fun p => cleanVal p.2 = true → ∃ j, jsonOfValue p.2 = some j ∧ valueOfJson j = p.2)
    ?_ ?_ ?_ ?_ ?_ ?_ ?_ ?_ ?_ ?_ ?_ ?_ v h
  · intro hc; simp [cleanVal] at hc
  · intro _; exact ⟨Json.null, rfl, rfl⟩
  · intro b _; exact ⟨Json.bool b, rfl, rfl⟩
  · intro n _; exact ⟨Json.num n, rfl, rfl⟩
  · intro s _; exact ⟨Json.str s, rfl, rfl⟩
  · intro xs ih hc
    refine ⟨Json.arr (jsonOfElems xs), rfl, ?_⟩
    simp [valueOfJson, ih (by simpa [cleanVal] using hc)]
  · intro fs ih hc
    refine ⟨Json.obj (jsonOfFields fs), rfl, ?_⟩
    simp [valueOfJson, ih (by simpa [cleanVal] using hc)]
  · intro _; simp [jsonOfElems, valuesOfJsons]
  · intro x xs ihx ihxs hc
    simp only [cleanElems, Bool.and_eq_true] at hc
    obtain ⟨j, hj, hback⟩ := ihx hc.1
    simp [jsonOfElems, hj, valuesOfJsons, hback, ihxs hc.2]
  · intro _; simp [jsonOfFields, valuesOfJsonFields]
  · intro p fs ihp ihfs hc
    cases p with
    | mk k v =>
      simp only [cleanFields, Bool.and_eq_true] at hc
      simp only at ihp
      obtain ⟨j, hj, hback⟩ := ihp hc.1
      simp [jsonOfFields, hj, valuesOfJsonFields, hback, ihfs hc.2]
  · intro k v ihv; simpa using ihv

/-- Errors thrown (or returned) by the adapter.  interfaceError models the
this.interfaceError helper of the base class; error models a plain JS Error;
typeError models a TypeError raised by destructuring null. -/
inductive Err where
  | interfaceError (msg : String) : Err
  | error (msg : String) : Err
  | typeError (msg : String) : Err
deriving DecidableEq

/-- A flat string-keyed store (window.sessionStorage / window.localStorage):
getItem returning none models the null result of the browser API. -/
abbrev Strg : Type := String → Option Json

def emptyStrg : Strg := fun _ => none

def Strg.getItem (s : Strg) (k : String) : Option Json := s k

def Strg.setItem (s : Strg) (k : String) (v : Json) : Strg :=
  fun q => if q = k then some v else s q

def Strg.removeItem (s : Strg) (k : String) : Strg :=
  fun q => if q = k then none else s q

/-- The two persistent stores reachable from the global window object. -/
structure Window where
  sessionStorage : Strg
  localStorage : Strg

def emptyWindow : Window := { sessionStorage := emptyStrg, localStorage := emptyStrg }

/-- The mutable fields of the SessionStorageInterface class, with the
initializers from the class body. -/
structure SessionStorageInterface where
  interfaceName : String := "SessionStorageInterface"
  storageName : String := ""
  keysArrayName : String := ""
  useCache : Bool := false
  asyncMode : Bool := false
  keysArrayCache : List String := []
  keyValueCache : List (String × JsValue) := []
  isDeleted : Bool := false

/-- A fresh instance: new SessionStorageInterface(). -/
def newIface : SessionStorageInterface := {}

/-- An adapter instance together with the window it operates on. -/
structure St where
  iface : SessionStorageInterface
  window : Window

/-- The per-instance defaults exported by the module. -/
def defaultUseCache : Bool := false

def defaultAsyncMode : Bool := false

/-- Modelled from the spec: the storage-facade package (not part of this
repository) exports defaultStorageName, documented as "storage". -/
def defaultStorageName : String := "storage"

/-- The setup record consumed by initSync; absent fields model undefined,
picked up by the ?? defaults in the source. -/
structure Setup where
  name : Option String := none
  useCache : Option Bool := none

/-- JSON.stringify of the keys array: a JSON array of strings. -/
def strArrJson (keys : List String) : Json := Json.arr (keys.map Json.str)

/-- The TS cast "JSON.parse(keysStr) as string[]": the registry entries this
adapter writes are always string arrays, the cast is unchecked otherwise. -/
def jsonToStr : Json → String
  | Json.str s => s
  | _ => ""

def parseStringArray : Json → List String
  | Json.arr xs => xs.map jsonToStr
  | _ => []

/-- The physical key for a logical key: this.keyName(key). -/
def keyName (ifc : SessionStorageInterface) (key : String) : String :=
  ifc.storageName ++ "-" ++ key

/-- The reserved registry key derived from a storage name. -/
def keysArrayNameOf (name : String) : String := "__" ++ name ++ "-keys-array"

/-- The wrapper written on set: JSON.stringify of the one-field object
containing the value; an "undefined" payload is dropped by stringify, leaving
the empty object (the string consisting of the two braces). -/
def stringifyWrapped (value : JsValue) : Json :=
  Json.obj (match jsonOfValue value with
    | none => []
    | some j => [("value", j)])

/-- Reading back the wrapper: JSON.parse followed by destructuring the field
named "value".  A missing field destructures to "undefined"; destructuring
null throws a TypeError; on a non-object primitive, property access yields
"undefined".  (Registry-writing only ever stores objects at value keys.) -/
def destructureWrapped : Json → Except Err JsValue
  | Json.null => Except.error (Err.typeError "Cannot destructure property")
  | Json.obj fields =>
      Except.ok (match fields.lookup "value" with
        | some jv => valueOfJson jv
        | none => JsValue.undef)
  | Json.bool _ => Except.ok JsValue.undef
  | Json.num _ => Except.ok JsValue.undef
  | Json.str _ => Except.ok JsValue.undef
  | Json.arr _ => Except.ok JsValue.undef

/-- JS Map.has on the keyValueCache (association list in insertion order). -/
def mapHas (m : List (String × JsValue)) (k : String) : Bool :=
  (m.lookup k).isSome

/-- JS Map.get. -/
def mapGet (m : List (String × JsValue)) (k : String) : Option JsValue :=
  m.lookup k

/-- JS Map.set: replaces in place, or appends a new binding. -/
def mapSet (m : List (String × JsValue)) (k : String) (v : JsValue) :
    List (String × JsValue) :=
  match m with
  | [] => [(k, v)]
  | (k2, v2) :: rest => if k2 = k then (k, v) :: rest else (k2, v2) :: mapSet rest k v

/-- JS Map.delete. -/
def mapDelete (m : List (String × JsValue)) (k : String) :
    List (String × JsValue) :=
  m.filter (fun p => decide (p.1 ≠ k))

/-- The error thrown by checkStorage once the deletion flag is set. -/
def errDeleted : Err := Err.error "This Storage was deleted!"

/-- getKeysArray(): read the persisted registry, throw if it is absent, and
mirror it into the cache when caching is on. -/
def getKeysArray (s : St) : Except Err (List String) × St :=
  match s.window.sessionStorage.getItem s.iface.keysArrayName with
  | none =>
      (Except.error (Err.interfaceError ("'" ++ s.iface.keysArrayName ++ "' not found.")), s)
  | some keysJson =>
      let keys := parseStringArray keysJson
      (Except.ok keys,
        if s.iface.useCache = true
        then { s with iface := { s.iface with keysArrayCache := keys } }
        else s)

/-- initSync(setup): fix the configured names, create the registry in the
store if absent, or load it into the cache mirror if present and caching is
on.  (The underlying store never throws in this model, so the catch branch
returning the error value is not reachable.) -/
def initSync (s : St) (setup : Setup) : Except Err Unit × St :=
  let ifc :=
    { s.iface with
      storageName := setup.name.getD defaultStorageName,
      useCache := setup.useCache.getD defaultUseCache }
  let ifc := { ifc with keysArrayName := keysArrayNameOf ifc.storageName }
  match s.window.sessionStorage.getItem ifc.keysArrayName with
  | none =>
      (Except.ok (),
        { iface := ifc,
          window :=
            { s.window with
              sessionStorage :=
                s.window.sessionStorage.setItem ifc.keysArrayName (strArrJson []) } })
  | some keysJson =>
      (Except.ok (),
        { iface :=
            if ifc.useCache = true
            then { ifc with keysArrayCache := parseStringArray keysJson }
            else ifc,
          window := s.window })

/-- getItemSync(key): checkStorage; serve a deep copy from the cache on a
hit; otherwise read the store, unwrap, and refresh the cache mirror. -/
def getItemSync (s : St) (key : String) : Except Err JsValue × St :=
  if s.iface.isDeleted = true then (Except.error errDeleted, s)
  else if s.iface.useCache = true && mapHas s.iface.keyValueCache key then
    (Except.ok (structuredClone ((mapGet s.iface.keyValueCache key).getD JsValue.undef)), s)
  else
    match s.window.sessionStorage.getItem (keyName s.iface key) with
    | none => (Except.ok JsValue.undef, s)
    | some valueJson =>
        match destructureWrapped valueJson with
        | Except.error e => (Except.error e, s)
        | Except.ok value =>
            (Except.ok value,
              if s.iface.useCache = true
              then { s with iface :=
                { s.iface with
                  keyValueCache := mapSet s.iface.keyValueCache key (structuredClone value) } }
              else s)

/-- The tail of setItemSync once the keys array has been obtained: append and
persist the registry on first insertion, write the wrapped value, refresh the
cache mirror. -/
def setItemWith (s : St) (key : String) (value : JsValue) (keysArray : List String) :
    Except Err Unit × St :=
  let s3 :=
    if key ∈ keysArray then s
    else
      { iface :=
          if s.iface.useCache = true
          then { s.iface with keysArrayCache := keysArray ++ [key] }
          else s.iface,
        window :=
          { s.window with
            sessionStorage :=
              s.window.sessionStorage.setItem s.iface.keysArrayName
                (strArrJson (keysArray ++ [key])) } }
  let s4 : St :=
    { s3 with
      window :=
        { s3.window with
          sessionStorage :=
            s3.window.sessionStorage.setItem (keyName s3.iface key)
              (stringifyWrapped value) } }
  if s4.iface.useCache = true then
    (Except.ok (),
      { s4 with iface :=
        { s4.iface with
          keyValueCache := mapSet s4.iface.keyValueCache key (structuredClone value) } })
  else (Except.ok (), s4)

/-- setItemSync(key, value): checkStorage; reject the reserved registry key;
obtain the keys array (cache mirror or persisted registry); then write. -/
def setItemSync (s : St) (key : String) (value : JsValue) : Except Err Unit × St :=
  if s.iface.isDeleted = true then (Except.error errDeleted, s)
  else if key = s.iface.keysArrayName then
    (Except.error (Err.interfaceError ("key '" ++ key ++ "' cannot be used.")), s)
  else if s.iface.useCache = true then setItemWith s key value s.iface.keysArrayCache
  else
    match getKeysArray s with
    | (Except.error e, s2) => (Except.error e, s2)
    | (Except.ok keysArray, s2) => setItemWith s2 key value keysArray

/-- The tail of removeItemSync once the keys array has been obtained. -/
def removeItemWith (s : St) (key : String) (keysArray : List String) :
    Except Err Unit × St :=
  let updatedKeysArray := keysArray.filter (fun savedKey => decide (savedKey ≠ key))
  (Except.ok (),
    { iface :=
        if s.iface.useCache = true
        then { s.iface with
          keyValueCache := mapDelete s.iface.keyValueCache key,
          keysArrayCache := updatedKeysArray }
        else s.iface,
      window :=
        { s.window with
          sessionStorage :=
            (s.window.sessionStorage.setItem s.iface.keysArrayName
                (strArrJson updatedKeysArray)).removeItem
              (keyName s.iface key) } })

/-- removeItemSync(key): checkStorage; filter the key out of the registry and
persist it; delete the entry; refresh the cache mirror. -/
def removeItemSync (s : St) (key : String) : Except Err Unit × St :=
  if s.iface.isDeleted = true then (Except.error errDeleted, s)
  else if s.iface.useCache = true then removeItemWith s key s.iface.keysArrayCache
  else
    match getKeysArray s with
    | (Except.error e, s2) => (Except.error e, s2)
    | (Except.ok keysArray, s2) => removeItemWith s2 key keysArray

/-- The tail of clearSync once the keys array has been obtained. -/
def clearWith (s : St) (keysArray : List String) : Except Err Unit × St :=
  (Except.ok (),
    { iface :=
        if s.iface.useCache = true
        then { s.iface with keyValueCache := [], keysArrayCache := [] }
        else s.iface,
      window :=
        { s.window with
          sessionStorage :=
            (keysArray.foldl (fun ss k => ss.removeItem (keyName s.iface k))
                s.window.sessionStorage).setItem
              s.iface.keysArrayName (strArrJson []) } })

/-- clearSync(): checkStorage; delete every registered entry; reset the
persisted registry to the empty array; empty the cache mirror. -/
def clearSync (s : St) : Except Err Unit × St :=
  if s.iface.isDeleted = true then (Except.error errDeleted, s)
  else if s.iface.useCache = true then clearWith s s.iface.keysArrayCache
  else
    match getKeysArray s with
    | (Except.error e, s2) => (Except.error e, s2)
    | (Except.ok keysArray, s2) => clearWith s2 keysArray

/-- sizeSync(): checkStorage; length of the keys array. -/
def sizeSync (s : St) : Except Err Nat × St :=
  if s.iface.isDeleted = true then (Except.error errDeleted, s)
  else if s.iface.useCache = true then (Except.ok s.iface.keysArrayCache.length, s)
  else
    match getKeysArray s with
    | (Except.error e, s2) => (Except.error e, s2)
    | (Except.ok keysArray, s2) => (Except.ok keysArray.length, s2)

/-- keySync(index): checkStorage; JS array indexing keysArray[index], which
yields "undefined" (modelled as none) for any out-of-range index. -/
def keySync (s : St) (index : Int) : Except Err (Option String) × St :=
  if s.iface.isDeleted = true then (Except.error errDeleted, s)
  else if s.iface.useCache = true then
    (Except.ok (if index < 0 then none else s.iface.keysArrayCache[index.toNat]?), s)
  else
    match getKeysArray s with
    | (Except.error e, s2) => (Except.error e, s2)
    | (Except.ok keysArray, s2) =>
        (Except.ok (if index < 0 then none else keysArray[index.toNat]?), s2)

/-- deleteStorageSync(): clearSync, then remove the keys array from
window.localStorage (so in the source, not from sessionStorage), then set the
deletion flag. -/
def deleteStorageSync (s : St) : Except Err Unit × St :=
  match clearSync s with
  | (Except.error e, s2) => (Except.error e, s2)
  | (Except.ok _, s2) =>
      (Except.ok (),
        { iface := { s2.iface with isDeleted := true },
          window :=
            { s2.window with
              localStorage := s2.window.localStorage.removeItem s2.iface.keysArrayName } })

/-- A freshly constructed and initialized adapter over an empty window. -/
def freshSt (name : String) (c : Bool) : St :=
  (initSync { iface := newIface, window := emptyWindow }
    { name := some name, useCache := some c }).2

theorem Strg.getItem_setItem_self (s : Strg) (k : String) (v : Json) :
    (s.setItem k v).getItem k = some v := by
  simp [Strg.getItem, Strg.setItem]

theorem Strg.getItem_setItem_ne (s : Strg) (k q : String) (v : Json) (h : q ≠ k) :
    (s.setItem k v).getItem q = s.getItem q := by
  simp [Strg.getItem, Strg.setItem, h]

theorem Strg.getItem_removeItem_self (s : Strg) (k : String) :
    (s.removeItem k).getItem k = none := by
  simp [Strg.getItem, Strg.removeItem]

theorem Strg.getItem_removeItem_ne (s : Strg) (k q : String) (h : q ≠ k) :
    (s.removeItem k).getItem q = s.getItem q := by
  simp [Strg.getItem, Strg.removeItem, h]

theorem mapSet_lookup_self (m : List (String × JsValue)) (k : String) (v : JsValue) :
    (mapSet m k v).lookup k = some v := by
  induction m with
  | nil => simp [mapSet, List.lookup]
  | cons p rest ih =>
    cases p with
    | mk k2 v2 =>
      by_cases h : k2 = k
      · simp [mapSet, h, List.lookup]
      · simp only [mapSet, if_neg h]
        rw [List.lookup]
        have : (k == k2) = false := beq_eq_false_iff_ne.mpr (fun he => h he.symm)
        simp [this, ih]

theorem parseStringArray_strArrJson (keys : List String) :
    parseStringArray (strArrJson keys) = keys := by
  simp [parseStringArray, strArrJson, List.map_map]
  exact List.map_id'' (fun s => rfl) keys

/-- Injectivity of String.mk. -/
theorem string_data_inj {a b : String} (h : a.data = b.data) : a = b := by
  cases a
  cases b
  exact congrArg String.mk h

/-- Appending a dashed suffix can never produce a string that starts with two
underscores followed by the same list and another dashed suffix. -/
theorem chars_aux (n : List Char) :
    ∀ k k', n ++ '-' :: k ≠ '_' :: '_' :: (n ++ '-' :: k') := by
  induction n with
  | nil => intro k k' h; simp at h
  | cons c m ih =>
    intro k k' h
    simp only [List.cons_append, List.cons.injEq] at h
    obtain ⟨hc, ht⟩ := h
    subst hc
    exact ih k k' (by simpa using ht)

/-- A physical value key of a namespace never collides with the registry key
of the same namespace. -/
theorem keyName_ne_keysArrayNameOf (name key : String) :
    name ++ "-" ++ key ≠ keysArrayNameOf name := by
  intro h
  have hd : (name ++ "-" ++ key).data = (keysArrayNameOf name).data :=
    congrArg String.data h
  rw [keysArrayNameOf] at hd
  rw [String.data_append, String.data_append, String.data_append,
    String.data_append] at hd
  have hdash : ("-" : String).data = ['-'] := rfl
  have huu : ("__" : String).data = ['_', '_'] := rfl
  have hka : ("-keys-array" : String).data = '-' :: ("keys-array" : String).data := rfl
  rw [hdash, huu, hka] at hd
  rw [List.append_assoc] at hd
  exact chars_aux name.data key.data ("keys-array").data (by simpa using hd)

/-- Distinct logical keys have distinct physical keys within one namespace. -/
theorem keyName_inj {name k1 k2 : String} (h : name ++ "-" ++ k1 = name ++ "-" ++ k2) :
    k1 = k2 := by
  have hd := congrArg String.data h
  rw [String.data_append, String.data_append, String.data_append,
    String.data_append] at hd
  have h2 := List.append_cancel_left hd
  exact string_data_inj h2

theorem keyName_ne_keysArrayName {s : St}
    (hn : s.iface.keysArrayName = keysArrayNameOf s.iface.storageName) (k : String) :
    keyName s.iface k ≠ s.iface.keysArrayName := by
  rw [hn, keyName]
  exact keyName_ne_keysArrayNameOf s.iface.storageName k

theorem bool_not_true {b : Bool} (h : ¬ b = true) : b = false := by
  cases b <;> simp_all

/-- The instance's registry key is the one derived from its storage name, as
established by initSync. -/
def NameInv (s : St) : Prop :=
  s.iface.keysArrayName = keysArrayNameOf s.iface.storageName

/-- The central consistency invariant relating the persisted registry, the
stored entries and the cache mirror: the registry entry holds exactly the
given ordered key list, the list has no duplicates, it contains exactly the
logical keys with a stored entry, and when caching is on the mirror agrees
with the persisted registry. -/
structure RegInv (s : St) (keys : List String) : Prop where
  reg : s.window.sessionStorage.getItem s.iface.keysArrayName = some (strArrJson keys)
  nodup : keys.Nodup
  mem : ∀ k, k ∈ keys ↔ (s.window.sessionStorage.getItem (keyName s.iface k)).isSome = true
  cache : s.iface.useCache = true → s.iface.keysArrayCache = keys

theorem foldl_removeItem_getItem (ifc : SessionStorageInterface) (L : List String)
    (ss : Strg) (q : String) :
    (L.foldl (fun t k => t.removeItem (keyName ifc k)) ss).getItem q
      = if ∃ k ∈ L, q = keyName ifc k then none else ss.getItem q := by
  induction L generalizing ss with
  | nil => simp
  | cons a L ih =>
    rw [List.foldl_cons, ih]
    by_cases h1 : ∃ k ∈ L, q = keyName ifc k
    · rw [if_pos h1,
        if_pos ⟨h1.choose, List.mem_cons_of_mem a h1.choose_spec.1, h1.choose_spec.2⟩]
    · rw [if_neg h1]
      by_cases h2 : q = keyName ifc a
      · rw [if_pos ⟨a, List.mem_cons_self a L, h2⟩]
        simp [Strg.getItem, Strg.removeItem, h2]
      · rw [if_neg ?_]
        · exact Strg.getItem_removeItem_ne _ _ _ h2
        · rintro ⟨k, hk, hq⟩
          rcases List.mem_cons.mp hk with h | h
          · exact h2 (h ▸ hq)
          · exact h1 ⟨k, h, hq⟩

theorem getKeysArray_ok (s : St) (keys : List String)
    (hreg : s.window.sessionStorage.getItem s.iface.keysArrayName = some (strArrJson keys))
    (hc : s.iface.useCache = false) :
    getKeysArray s = (Except.ok keys, s) := by
  simp [getKeysArray, hreg, parseStringArray_strArrJson, hc]

theorem setItemWith_mem (s : St) (key : String) (v : JsValue) (keysArray : List String)
    (h : key ∈ keysArray) :
    setItemWith s key v keysArray =
      (Except.ok (),
        { iface :=
            if s.iface.useCache = true
            then { s.iface with keyValueCache := mapSet s.iface.keyValueCache key v }
            else s.iface,
          window :=
            { s.window with
              sessionStorage :=
                s.window.sessionStorage.setItem (keyName s.iface key)
                  (stringifyWrapped v) } }) := by
  by_cases hc : s.iface.useCache = true
  · simp [setItemWith, h, hc, structuredClone_eq]
  · simp [setItemWith, h, bool_not_true hc]

theorem setItemWith_new (s : St) (key : String) (v : JsValue) (keysArray : List String)
    (h : key ∉ keysArray) :
    setItemWith s key v keysArray =
      (Except.ok (),
        { iface :=
            if s.iface.useCache = true
            then { s.iface with
                keysArrayCache := keysArray ++ [key],
                keyValueCache := mapSet s.iface.keyValueCache key v }
            else s.iface,
          window :=
            { s.window with
              sessionStorage :=
                (s.window.sessionStorage.setItem s.iface.keysArrayName
                    (strArrJson (keysArray ++ [key]))).setItem
                  (keyName s.iface key) (stringifyWrapped v) } }) := by
  by_cases hc : s.iface.useCache = true
  · simp [setItemWith, h, hc, structuredClone_eq, keyName]
  · simp [setItemWith, h, bool_not_true hc, keyName]

theorem setItemSync_ok (s : St) (keys : List String) (key : String) (v : JsValue)
    (hr : RegInv s keys) (hd : s.iface.isDeleted = false)
    (hk : key ≠ s.iface.keysArrayName) :
    setItemSync s key v = setItemWith s key v keys := by
  rw [setItemSync, if_neg (by simp [hd]), if_neg hk]
  by_cases hc : s.iface.useCache = true
  · rw [if_pos hc, hr.cache hc]
  · rw [if_neg hc, getKeysArray_ok s keys hr.reg (bool_not_true hc)]

theorem removeItemSync_ok (s : St) (keys : List String) (key : String)
    (hr : RegInv s keys) (hd : s.iface.isDeleted = false) :
    removeItemSync s key = removeItemWith s key keys := by
  rw [removeItemSync, if_neg (by simp [hd])]
  by_cases hc : s.iface.useCache = true
  · rw [if_pos hc, hr.cache hc]
  · rw [if_neg hc, getKeysArray_ok s keys hr.reg (bool_not_true hc)]

theorem clearSync_ok (s : St) (keys : List String)
    (hr : RegInv s keys) (hd : s.iface.isDeleted = false) :
    clearSync s = clearWith s keys := by
  rw [clearSync, if_neg (by simp [hd])]
  by_cases hc : s.iface.useCache = true
  · rw [if_pos hc, hr.cache hc]
  · rw [if_neg hc, getKeysArray_ok s keys hr.reg (bool_not_true hc)]

theorem sizeSync_eq (s : St) (keys : List String)
    (hr : RegInv s keys) (hd : s.iface.isDeleted = false) :
    sizeSync s = (Except.ok keys.length, s) := by
  rw [sizeSync, if_neg (by simp [hd])]
  by_cases hc : s.iface.useCache = true
  · rw [if_pos hc, hr.cache hc]
  · rw [if_neg hc, getKeysArray_ok s keys hr.reg (bool_not_true hc)]

theorem keySync_eq (s : St) (keys : List String) (index : Int)
    (hr : RegInv s keys) (hd : s.iface.isDeleted = false) :
    keySync s index
      = (Except.ok (if index < 0 then none else keys[index.toNat]?), s) := by
  rw [keySync, if_neg (by simp [hd])]
  by_cases hc : s.iface.useCache = true
  · rw [if_pos hc, hr.cache hc]
  · rw [if_neg hc, getKeysArray_ok s keys hr.reg (bool_not_true hc)]

theorem keyName_inj' {ifc : SessionStorageInterface} {k1 k2 : String}
    (h : keyName ifc k1 = keyName ifc k2) : k1 = k2 :=
  keyName_inj (by simpa [keyName] using h)

theorem setItemWith_post (s : St) (keys : List String) (key : String) (v : JsValue)
    (hn : NameInv s) (hr : RegInv s keys) (hd : s.iface.isDeleted = false) :
    (setItemWith s key v keys).1 = Except.ok () ∧
    NameInv (setItemWith s key v keys).2 ∧
    RegInv (setItemWith s key v keys).2 (if key ∈ keys then keys else keys ++ [key]) ∧
    (setItemWith s key v keys).2.iface.storageName = s.iface.storageName ∧
    (setItemWith s key v keys).2.iface.keysArrayName = s.iface.keysArrayName ∧
    (setItemWith s key v keys).2.iface.useCache = s.iface.useCache ∧
    (setItemWith s key v keys).2.iface.isDeleted = false ∧
    (key ∈ keys →
      (setItemWith s key v keys).2.window.sessionStorage.getItem s.iface.keysArrayName
        = s.window.sessionStorage.getItem s.iface.keysArrayName) ∧
    (setItemWith s key v keys).2.window.sessionStorage.getItem (keyName s.iface key)
      = some (stringifyWrapped v) ∧
    (s.iface.useCache = true →
      mapGet (setItemWith s key v keys).2.iface.keyValueCache key = some v) ∧
    (setItemWith s key v keys).2.window.localStorage = s.window.localStorage := by
  have hnn : ∀ k, keyName s.iface k ≠ s.iface.keysArrayName :=
    keyName_ne_keysArrayName hn
  by_cases hm : key ∈ keys
  · rw [setItemWith_mem s key v keys hm, if_pos hm]
    have hreg1 : (s.window.sessionStorage.setItem (keyName s.iface key)
        (stringifyWrapped v)).getItem s.iface.keysArrayName
        = s.window.sessionStorage.getItem s.iface.keysArrayName :=
      Strg.getItem_setItem_ne _ _ _ _ (Ne.symm (hnn key))
    have hval1 : (s.window.sessionStorage.setItem (keyName s.iface key)
        (stringifyWrapped v)).getItem (keyName s.iface key)
        = some (stringifyWrapped v) := Strg.getItem_setItem_self _ _ _
    have hmem1 : ∀ k', k' ∈ keys ↔
        ((s.window.sessionStorage.setItem (keyName s.iface key)
          (stringifyWrapped v)).getItem (keyName s.iface k')).isSome = true := by
      intro k'
      by_cases hk' : k' = key
      · subst hk'
        rw [hval1]
        simp [hm]
      · rw [Strg.getItem_setItem_ne _ _ _ _ (fun he => hk' (keyName_inj' he))]
        exact hr.mem k'
    by_cases hc : s.iface.useCache = true
    · rw [if_pos hc]
      exact ⟨rfl, hn, ⟨hreg1.trans hr.reg, hr.nodup, hmem1, fun _ => hr.cache hc⟩,
        rfl, rfl, rfl, hd, fun _ => hreg1, hval1,
        fun _ => mapSet_lookup_self _ _ _, rfl⟩
    · rw [if_neg hc]
      exact ⟨rfl, hn, ⟨hreg1.trans hr.reg, hr.nodup, hmem1, fun hct => absurd hct hc⟩,
        rfl, rfl, rfl, hd, fun _ => hreg1, hval1,
        fun hct => absurd hct hc, rfl⟩
  · rw [setItemWith_new s key v keys hm, if_neg hm]
    have hreg2 : ((s.window.sessionStorage.setItem s.iface.keysArrayName
        (strArrJson (keys ++ [key]))).setItem (keyName s.iface key)
          (stringifyWrapped v)).getItem s.iface.keysArrayName
        = some (strArrJson (keys ++ [key])) := by
      rw [Strg.getItem_setItem_ne _ _ _ _ (Ne.symm (hnn key))]
      exact Strg.getItem_setItem_self _ _ _
    have hval2 : ((s.window.sessionStorage.setItem s.iface.keysArrayName
        (strArrJson (keys ++ [key]))).setItem (keyName s.iface key)
          (stringifyWrapped v)).getItem (keyName s.iface key)
        = some (stringifyWrapped v) := Strg.getItem_setItem_self _ _ _
    have hmem2 : ∀ k', k' ∈ keys ++ [key] ↔
        (((s.window.sessionStorage.setItem s.iface.keysArrayName
          (strArrJson (keys ++ [key]))).setItem (keyName s.iface key)
            (stringifyWrapped v)).getItem (keyName s.iface k')).isSome = true := by
      intro k'
      by_cases hk' : k' = key
      · subst hk'
        rw [hval2]
        simp
      · rw [Strg.getItem_setItem_ne _ _ _ _ (fun he => hk' (keyName_inj' he)),
          Strg.getItem_setItem_ne _ _ _ _ (hnn k')]
        rw [List.mem_append]
        simp only [List.mem_singleton, hk', or_false]
        exact hr.mem k'
    have hnodup2 : (keys ++ [key]).Nodup := by
      rw [List.nodup_append]
      refine ⟨hr.nodup, List.nodup_singleton key, ?_⟩
      intro a ha hb
      rw [List.mem_singleton] at hb
      subst hb
      exact hm ha
    by_cases hc : s.iface.useCache = true
    · rw [if_pos hc]
      exact ⟨rfl, hn, ⟨hreg2, hnodup2, hmem2, fun _ => rfl⟩, rfl, rfl, rfl, hd,
        fun hmm => absurd hmm hm, hval2, fun _ => mapSet_lookup_self _ _ _, rfl⟩
    · rw [if_neg hc]
      exact ⟨rfl, hn, ⟨hreg2, hnodup2, hmem2, fun hct => absurd hct hc⟩, rfl, rfl, rfl,
        hd, fun hmm => absurd hmm hm, hval2, fun hct => absurd hct hc, rfl⟩

theorem removeItemWith_post (s : St) (keys : List String) (key : String)
    (hn : NameInv s) (hr : RegInv s keys) (hd : s.iface.isDeleted = false) :
    (removeItemWith s key keys).1 = Except.ok () ∧
    NameInv (removeItemWith s key keys).2 ∧
    RegInv (removeItemWith s key keys).2
      (keys.filter (fun k2 => decide (k2 ≠ key))) ∧
    (removeItemWith s key keys).2.iface.storageName = s.iface.storageName ∧
    (removeItemWith s key keys).2.iface.keysArrayName = s.iface.keysArrayName ∧
    (removeItemWith s key keys).2.iface.useCache = s.iface.useCache ∧
    (removeItemWith s key keys).2.iface.isDeleted = false ∧
    (removeItemWith s key keys).2.window.sessionStorage.getItem (keyName s.iface key)
      = none ∧
    (removeItemWith s key keys).2.window.localStorage = s.window.localStorage := by
  have hnn : ∀ k, keyName s.iface k ≠ s.iface.keysArrayName :=
    keyName_ne_keysArrayName hn
  have hregF : (((s.window.sessionStorage.setItem s.iface.keysArrayName
      (strArrJson (keys.filter (fun k2 => decide (k2 ≠ key))))).removeItem
        (keyName s.iface key))).getItem s.iface.keysArrayName
      = some (strArrJson (keys.filter (fun k2 => decide (k2 ≠ key)))) := by
    rw [Strg.getItem_removeItem_ne _ _ _ (Ne.symm (hnn key))]
    exact Strg.getItem_setItem_self _ _ _
  have hvalF : (((s.window.sessionStorage.setItem s.iface.keysArrayName
      (strArrJson (keys.filter (fun k2 => decide (k2 ≠ key))))).removeItem
        (keyName s.iface key))).getItem (keyName s.iface key) = none :=
    Strg.getItem_removeItem_self _ _
  have hmemF : ∀ k', k' ∈ keys.filter (fun k2 => decide (k2 ≠ key)) ↔
      ((((s.window.sessionStorage.setItem s.iface.keysArrayName
        (strArrJson (keys.filter (fun k2 => decide (k2 ≠ key))))).removeItem
          (keyName s.iface key))).getItem (keyName s.iface k')).isSome = true := by
    intro k'
    by_cases hk' : k' = key
    · subst hk'
      rw [hvalF]
      simp
    · rw [Strg.getItem_removeItem_ne _ _ _ (fun he => hk' (keyName_inj' he)),
        Strg.getItem_setItem_ne _ _ _ _ (hnn k')]
      rw [List.mem_filter]
      simp only [decide_eq_true_eq]
      constructor
      · intro hand
        exact (hr.mem k').mp hand.1
      · intro hs
        exact ⟨(hr.mem k').mpr hs, hk'⟩
  have hnodupF : (keys.filter (fun k2 => decide (k2 ≠ key))).Nodup :=
    hr.nodup.filter _
  by_cases hc : s.iface.useCache = true
  · rw [removeItemWith, if_pos hc]
    exact ⟨rfl, hn, ⟨hregF, hnodupF, hmemF, fun _ => rfl⟩, rfl, rfl, rfl, hd,
      hvalF, rfl⟩
  · rw [removeItemWith, if_neg hc]
    exact ⟨rfl, hn, ⟨hregF, hnodupF, hmemF, fun hct => absurd hct hc⟩, rfl, rfl, rfl,
      hd, hvalF, rfl⟩

theorem clearWith_post (s : St) (keys : List String)
    (hn : NameInv s) (hr : RegInv s keys) (hd : s.iface.isDeleted = false) :
    (clearWith s keys).1 = Except.ok () ∧
    NameInv (clearWith s keys).2 ∧
    RegInv (clearWith s keys).2 [] ∧
    (clearWith s keys).2.iface.storageName = s.iface.storageName ∧
    (clearWith s keys).2.iface.keysArrayName = s.iface.keysArrayName ∧
    (clearWith s keys).2.iface.useCache = s.iface.useCache ∧
    (clearWith s keys).2.iface.isDeleted = false ∧
    (clearWith s keys).2.window.localStorage = s.window.localStorage := by
  have hnn : ∀ k, keyName s.iface k ≠ s.iface.keysArrayName :=
    keyName_ne_keysArrayName hn
  have hregC : ((keys.foldl (fun ss k => ss.removeItem (keyName s.iface k))
      s.window.sessionStorage).setItem s.iface.keysArrayName
        (strArrJson [])).getItem s.iface.keysArrayName = some (strArrJson []) :=
    Strg.getItem_setItem_self _ _ _
  have hmemC : ∀ k', k' ∈ ([] : List String) ↔
      (((keys.foldl (fun ss k => ss.removeItem (keyName s.iface k))
        s.window.sessionStorage).setItem s.iface.keysArrayName
          (strArrJson [])).getItem (keyName s.iface k')).isSome = true := by
    intro k'
    rw [Strg.getItem_setItem_ne _ _ _ _ (hnn k'), foldl_removeItem_getItem]
    by_cases hex : ∃ k ∈ keys, keyName s.iface k' = keyName s.iface k
    · rw [if_pos hex]
      simp
    · rw [if_neg hex]
      have hk'notin : k' ∉ keys := fun hin => hex ⟨k', hin, rfl⟩
      have : ¬ ((s.window.sessionStorage.getItem (keyName s.iface k')).isSome = true) :=
        fun hs => hk'notin ((hr.mem k').mpr hs)
      simp [this]
  by_cases hc : s.iface.useCache = true
  · rw [clearWith, if_pos hc]
    exact ⟨rfl, hn, ⟨hregC, List.nodup_nil, hmemC, fun _ => rfl⟩, rfl, rfl, rfl, hd, rfl⟩
  · rw [clearWith, if_neg hc]
    exact ⟨rfl, hn, ⟨hregC, List.nodup_nil, hmemC, fun hct => absurd hct hc⟩, rfl, rfl,
      rfl, hd, rfl⟩

theorem setItemSync_post (s : St) (keys : List String) (key : String) (v : JsValue)
    (hn : NameInv s) (hr : RegInv s keys) (hd : s.iface.isDeleted = false)
    (hk : key ≠ s.iface.keysArrayName) :
    (setItemSync s key v).1 = Except.ok () ∧
    NameInv (setItemSync s key v).2 ∧
    RegInv (setItemSync s key v).2 (if key ∈ keys then keys else keys ++ [key]) ∧
    (setItemSync s key v).2.iface.storageName = s.iface.storageName ∧
    (setItemSync s key v).2.iface.keysArrayName = s.iface.keysArrayName ∧
    (setItemSync s key v).2.iface.useCache = s.iface.useCache ∧
    (setItemSync s key v).2.iface.isDeleted = false ∧
    (key ∈ keys →
      (setItemSync s key v).2.window.sessionStorage.getItem s.iface.keysArrayName
        = s.window.sessionStorage.getItem s.iface.keysArrayName) ∧
    (setItemSync s key v).2.window.sessionStorage.getItem (keyName s.iface key)
      = some (stringifyWrapped v) ∧
    (s.iface.useCache = true →
      mapGet (setItemSync s key v).2.iface.keyValueCache key = some v) ∧
    (setItemSync s key v).2.window.localStorage = s.window.localStorage := by
  rw [setItemSync_ok s keys key v hr hd hk]
  exact setItemWith_post s keys key v hn hr hd

theorem removeItemSync_post (s : St) (keys : List String) (key : String)
    (hn : NameInv s) (hr : RegInv s keys) (hd : s.iface.isDeleted = false) :
    (removeItemSync s key).1 = Except.ok () ∧
    NameInv (removeItemSync s key).2 ∧
    RegInv (removeItemSync s key).2 (keys.filter (fun k2 => decide (k2 ≠ key))) ∧
    (removeItemSync s key).2.iface.storageName = s.iface.storageName ∧
    (removeItemSync s key).2.iface.keysArrayName = s.iface.keysArrayName ∧
    (removeItemSync s key).2.iface.useCache = s.iface.useCache ∧
    (removeItemSync s key).2.iface.isDeleted = false ∧
    (removeItemSync s key).2.window.sessionStorage.getItem (keyName s.iface key)
      = none ∧
    (removeItemSync s key).2.window.localStorage = s.window.localStorage := by
  rw [removeItemSync_ok s keys key hr hd]
  exact removeItemWith_post s keys key hn hr hd

theorem clearSync_post (s : St) (keys : List String)
    (hn : NameInv s) (hr : RegInv s keys) (hd : s.iface.isDeleted = false) :
    (clearSync s).1 = Except.ok () ∧
    NameInv (clearSync s).2 ∧
    RegInv (clearSync s).2 [] ∧
    (clearSync s).2.iface.storageName = s.iface.storageName ∧
    (clearSync s).2.iface.keysArrayName = s.iface.keysArrayName ∧
    (clearSync s).2.iface.useCache = s.iface.useCache ∧
    (clearSync s).2.iface.isDeleted = false ∧
    (clearSync s).2.window.localStorage = s.window.localStorage := by
  rw [clearSync_ok s keys hr hd]
  exact clearWith_post s keys hn hr hd

theorem deleteStorageSync_eq (s : St) (keys : List String)
    (hr : RegInv s keys) (hd : s.iface.isDeleted = false) :
    deleteStorageSync s =
      (Except.ok (),
        { iface := { (clearWith s keys).2.iface with isDeleted := true },
          window :=
            { (clearWith s keys).2.window with
              localStorage :=
                (clearWith s keys).2.window.localStorage.removeItem
                  (clearWith s keys).2.iface.keysArrayName } }) := by
  rw [deleteStorageSync, clearSync_ok s keys hr hd]
  rfl

theorem deleteStorageSync_post (s : St) (keys : List String)
    (hn : NameInv s) (hr : RegInv s keys) (hd : s.iface.isDeleted = false) :
    (deleteStorageSync s).1 = Except.ok () ∧
    NameInv (deleteStorageSync s).2 ∧
    RegInv (deleteStorageSync s).2 [] ∧
    (deleteStorageSync s).2.iface.isDeleted = true ∧
    (deleteStorageSync s).2.iface.keysArrayName = s.iface.keysArrayName ∧
    (deleteStorageSync s).2.window.sessionStorage.getItem s.iface.keysArrayName
      = some (strArrJson []) ∧
    (deleteStorageSync s).2.window.localStorage
      = s.window.localStorage.removeItem s.iface.keysArrayName := by
  obtain ⟨h1, h2, h3, h4, h5, h6, h7, h8⟩ := clearWith_post s keys hn hr hd
  rw [deleteStorageSync_eq s keys hr hd]
  refine ⟨rfl, h2, ⟨h3.reg, h3.nodup, h3.mem, h3.cache⟩, rfl, h5, ?_, ?_⟩
  · rw [show ((clearWith s keys).2.window.sessionStorage.getItem
        s.iface.keysArrayName : Option Json)
        = (clearWith s keys).2.window.sessionStorage.getItem
          (clearWith s keys).2.iface.keysArrayName from by rw [h5]]
    exact h3.reg
  · rw [h5, h8]

theorem destructure_stringify (v : JsValue)
    (h : v = JsValue.undef ∨ cleanVal v = true) :
    destructureWrapped (stringifyWrapped v) = Except.ok v := by
  rcases h with h | h
  · subst h; rfl
  · obtain ⟨j, hj, hback⟩ := clean_roundtrip v h
    simp [stringifyWrapped, hj, destructureWrapped, List.lookup, hback]

theorem getItemSync_cache_hit (s : St) (key : String) (v : JsValue)
    (hd : s.iface.isDeleted = false) (hc : s.iface.useCache = true)
    (hh : mapGet s.iface.keyValueCache key = some v) :
    (getItemSync s key).1 = Except.ok v := by
  have hl : s.iface.keyValueCache.lookup key = some v := hh
  have hhas : mapHas s.iface.keyValueCache key = true := by
    rw [mapHas, hl]
    rfl
  rw [getItemSync, if_neg (by simp [hd]), if_pos (by rw [hc, hhas]; decide)]
  simp [mapGet, hl, structuredClone_eq]

theorem getItemSync_no_cache (s : St) (key : String) (v : JsValue)
    (hd : s.iface.isDeleted = false) (hc : s.iface.useCache = false)
    (hv : s.window.sessionStorage.getItem (keyName s.iface key)
      = some (stringifyWrapped v))
    (hclean : v = JsValue.undef ∨ cleanVal v = true) :
    (getItemSync s key).1 = Except.ok v := by
  rw [getItemSync, if_neg (by simp [hd]), if_neg (by simp [hc]), hv]
  simp [destructure_stringify v hclean]

theorem freshSt_post (name : String) (c : Bool) :
    NameInv (freshSt name c) ∧
    RegInv (freshSt name c) [] ∧
    (freshSt name c).iface.isDeleted = false ∧
    (freshSt name c).iface.storageName = name ∧
    (freshSt name c).iface.keysArrayName = keysArrayNameOf name ∧
    (freshSt name c).iface.useCache = c ∧
    (freshSt name c).window.localStorage = emptyStrg := by
  refine ⟨rfl, ⟨?_, List.nodup_nil, ?_, fun _ => rfl⟩, rfl, rfl, rfl, rfl, rfl⟩
  · exact Strg.getItem_setItem_self emptyStrg (keysArrayNameOf name) (strArrJson [])
  · intro k
    simp only [List.not_mem_nil, false_iff]
    intro hs
    have hne : keyName (freshSt name c).iface k ≠ keysArrayNameOf name :=
      keyName_ne_keysArrayNameOf name k
    have : ((emptyStrg.setItem (keysArrayNameOf name) (strArrJson [])).getItem
        (keyName (freshSt name c).iface k)) = none := by
      rw [Strg.getItem_setItem_ne _ _ _ _ hne]
      rfl
    rw [show ((freshSt name c).window.sessionStorage.getItem
        (keyName (freshSt name c).iface k))
        = ((emptyStrg.setItem (keysArrayNameOf name) (strArrJson [])).getItem
          (keyName (freshSt name c).iface k)) from rfl] at hs
    rw [this] at hs
    simp at hs

theorem clearSync_session_frame (s : St) (q : String)
    (h1 : ∀ k, q ≠ keyName s.iface k) (h2 : q ≠ s.iface.keysArrayName) :
    ((clearSync s).2).window.sessionStorage.getItem q
      = s.window.sessionStorage.getItem q := by
  rw [clearSync]
  by_cases hd : s.iface.isDeleted = true
  · rw [if_pos hd]
  · rw [if_neg hd]
    by_cases hc : s.iface.useCache = true
    · rw [if_pos hc]
      simp only [clearWith]
      rw [Strg.getItem_setItem_ne _ _ _ _ h2, foldl_removeItem_getItem,
        if_neg (by rintro ⟨k, _, hk⟩; exact h1 k hk)]
    · rw [if_neg hc]
      cases hg : s.window.sessionStorage.getItem s.iface.keysArrayName with
      | none => simp [getKeysArray, hg]
      | some j =>
          have hgk : getKeysArray s = (Except.ok (parseStringArray j), s) := by
            simp [getKeysArray, hg, bool_not_true hc]
          rw [hgk]
          simp only [clearWith]
          rw [Strg.getItem_setItem_ne _ _ _ _ h2, foldl_removeItem_getItem,
            if_neg (by rintro ⟨k, _, hk⟩; exact h1 k hk)]

theorem removeItemSync_session_frame (s : St) (key q : String)
    (h1 : ∀ k, q ≠ keyName s.iface k) (h2 : q ≠ s.iface.keysArrayName) :
    ((removeItemSync s key).2).window.sessionStorage.getItem q
      = s.window.sessionStorage.getItem q := by
  rw [removeItemSync]
  by_cases hd : s.iface.isDeleted = true
  · rw [if_pos hd]
  · rw [if_neg hd]
    by_cases hc : s.iface.useCache = true
    · rw [if_pos hc]
      simp only [removeItemWith]
      rw [Strg.getItem_removeItem_ne _ _ _ (h1 key),
        Strg.getItem_setItem_ne _ _ _ _ h2]
    · rw [if_neg hc]
      cases hg : s.window.sessionStorage.getItem s.iface.keysArrayName with
      | none => simp [getKeysArray, hg]
      | some j =>
          have hgk : getKeysArray s = (Except.ok (parseStringArray j), s) := by
            simp [getKeysArray, hg, bool_not_true hc]
          rw [hgk]
          simp only [removeItemWith]
          rw [Strg.getItem_removeItem_ne _ _ _ (h1 key),
            Strg.getItem_setItem_ne _ _ _ _ h2]

theorem deleteStorageSync_session_frame (s : St) (q : String)
    (h1 : ∀ k, q ≠ keyName s.iface k) (h2 : q ≠ s.iface.keysArrayName) :
    ((deleteStorageSync s).2).window.sessionStorage.getItem q
      = s.window.sessionStorage.getItem q := by
  have hcl := clearSync_session_frame s q h1 h2
  rw [deleteStorageSync]
  cases hc : clearSync s with
  | mk r s2 =>
    rw [hc] at hcl
    cases r with
    | error e => simpa using hcl
    | ok u => simpa using hcl

/-- A facade-level mutation: one set or one remove call. -/
inductive Op where
  | set (key : String) (value : JsValue) : Op
  | remove (key : String) : Op

def opKey : Op → String
  | Op.set k _ => k
  | Op.remove k => k

def applyOp (s : St) : Op → St
  | Op.set k v => (setItemSync s k v).2
  | Op.remove k => (removeItemSync s k).2

def runOps (s : St) : List Op → St
  | [] => s
  | op :: rest => runOps (applyOp s op) rest

/-- The registry contents predicted from an operation trace: a set appends the
key on first insertion and leaves the list unchanged otherwise, a remove
filters the key out.  Starting from the empty list this is exactly the list
of distinct keys ever set and not subsequently removed, in first-set order. -/
def traceKeys (acc : List String) : List Op → List String
  | [] => acc
  | Op.set k _ :: rest => traceKeys (if k ∈ acc then acc else acc ++ [k]) rest
  | Op.remove k :: rest => traceKeys (acc.filter (fun k2 => decide (k2 ≠ k))) rest

theorem runOps_append (s : St) (ops : List Op) (op : Op) :
    runOps s (ops ++ [op]) = applyOp (runOps s ops) op := by
  induction ops generalizing s with
  | nil => rfl
  | cons o rest ih => rw [List.cons_append, runOps, runOps, ih]

theorem traceKeys_append (acc : List String) (ops : List Op) (op : Op) :
    traceKeys acc (ops ++ [op]) = traceKeys (traceKeys acc ops) [op] := by
  induction ops generalizing acc with
  | nil => rfl
  | cons o rest ih =>
    cases o with
    | set k v => rw [List.cons_append, traceKeys, ih, traceKeys]
    | remove k => rw [List.cons_append, traceKeys, ih, traceKeys]

/-- Running a trace of set and remove calls whose keys avoid the reserved
registry key preserves the consistency invariant, and the registry evolves
exactly as traceKeys predicts. -/
theorem runOps_spec (ops : List Op) : ∀ (s : St) (keys : List String),
    NameInv s → RegInv s keys → s.iface.isDeleted = false →
    (∀ op ∈ ops, opKey op ≠ s.iface.keysArrayName) →
    NameInv (runOps s ops) ∧
    RegInv (runOps s ops) (traceKeys keys ops) ∧
    (runOps s ops).iface.isDeleted = false ∧
    (runOps s ops).iface.keysArrayName = s.iface.keysArrayName ∧
    (runOps s ops).iface.storageName = s.iface.storageName := by
  induction ops with
  | nil => exact fun s keys hn hr hd _ => ⟨hn, hr, hd, rfl, rfl⟩
  | cons op rest ih =>
    intro s keys hn hr hd hks
    have hkop : opKey op ≠ s.iface.keysArrayName :=
      hks op (List.mem_cons_self op rest)
    have hkrest : ∀ o ∈ rest, opKey o ≠ s.iface.keysArrayName :=
      fun o ho => hks o (List.mem_cons_of_mem op ho)
    cases op with
    | set k v =>
      obtain ⟨-, hn', hr', -, hname', -, hd', -, -, -, -⟩ :=
        setItemSync_post s keys k v hn hr hd hkop
      have hstep :
          NameInv (runOps (applyOp s (Op.set k v)) rest) ∧
          RegInv (runOps (applyOp s (Op.set k v)) rest)
            (traceKeys (if k ∈ keys then keys else keys ++ [k]) rest) ∧
          (runOps (applyOp s (Op.set k v)) rest).iface.isDeleted = false ∧
          (runOps (applyOp s (Op.set k v)) rest).iface.keysArrayName
            = (applyOp s (Op.set k v)).iface.keysArrayName ∧
          (runOps (applyOp s (Op.set k v)) rest).iface.storageName
            = (applyOp s (Op.set k v)).iface.storageName := by
        refine ih (applyOp s (Op.set k v))
          (if k ∈ keys then keys else keys ++ [k]) hn' hr' hd' ?_
        intro o ho
        rw [show (applyOp s (Op.set k v)).iface.keysArrayName
          = s.iface.keysArrayName from hname']
        exact hkrest o ho
      refine ⟨hstep.1, hstep.2.1, hstep.2.2.1, ?_, ?_⟩
      · rw [runOps, hstep.2.2.2.1]
        exact hname'
      · rw [runOps, hstep.2.2.2.2]
        obtain ⟨-, -, -, hsn, -, -, -, -, -, -, -⟩ :=
          setItemSync_post s keys k v hn hr hd hkop
        exact hsn
    | remove k =>
      obtain ⟨-, hn', hr', hsn', hname', -, hd', -, -⟩ :=
        removeItemSync_post s keys k hn hr hd
      have hstep :
          NameInv (runOps (applyOp s (Op.remove k)) rest) ∧
          RegInv (runOps (applyOp s (Op.remove k)) rest)
            (traceKeys (keys.filter (fun k2 => decide (k2 ≠ k))) rest) ∧
          (runOps (applyOp s (Op.remove k)) rest).iface.isDeleted = false ∧
          (runOps (applyOp s (Op.remove k)) rest).iface.keysArrayName
            = (applyOp s (Op.remove k)).iface.keysArrayName ∧
          (runOps (applyOp s (Op.remove k)) rest).iface.storageName
            = (applyOp s (Op.remove k)).iface.storageName := by
        refine ih (applyOp s (Op.remove k))
          (keys.filter (fun k2 => decide (k2 ≠ k))) hn' hr' hd' ?_
        intro o ho
        rw [show (applyOp s (Op.remove k)).iface.keysArrayName
          = s.iface.keysArrayName from hname']
        exact hkrest o ho
      refine ⟨hstep.1, hstep.2.1, hstep.2.2.1, ?_, ?_⟩
      · rw [runOps, hstep.2.2.2.1]
        exact hname'
      · rw [runOps, hstep.2.2.2.2]
        exact hsn'

theorem names_prefix_of_keyName_eq {n1 n2 k1 k2 : List Char}
    (h : n1 ++ '-' :: k1 = n2 ++ '-' :: k2) :
    (∃ u, n1 ++ u = n2) ∨ ∃ u, n2 ++ u = n1 := by
  rcases List.append_eq_append_iff.mp h with ⟨a', ha, -⟩ | ⟨c', hc, -⟩
  · exact Or.inl ⟨a', ha.symm⟩
  · exact Or.inr ⟨c', hc.symm⟩

theorem dashed_ne_underscore {n : List Char}
    (hne : ∀ c cs, n = c :: cs → c ≠ '_') (k rest : List Char) :
    n ++ '-' :: k ≠ '_' :: rest := by
  cases n with
  | nil => simp
  | cons c cs =>
    intro h
    simp only [List.cons_append, List.cons.injEq] at h
    exact hne c cs rfl h.1

theorem data_dashed (n k : String) : (n ++ "-" ++ k).data = n.data ++ '-' :: k.data := by
  rw [String.data_append, String.data_append, List.append_assoc]
  rfl

theorem data_keysArrayNameOf (n : String) :
    (keysArrayNameOf n).data
      = '_' :: '_' :: (n.data ++ '-' :: ("keys-array" : String).data) := by
  rw [keysArrayNameOf, String.data_append, String.data_append, List.append_assoc]
  rfl

/-- Claim C2 (amended).  Namespaces with different names are independent under
a name-compatibility side condition the original claim lacks: provided neither
storage name is a prefix of the other and neither starts with an underscore,
clearing one instance (clearSync, removeItemSync or deleteStorageSync) never
changes any stored entry of the other namespace nor its persisted registry.
The prefix conditions are stated over the character lists of the names. -/
theorem c2_namespaces_independent (s : St) (n2 : String)
    (hn : NameInv s)
    (h1 : ∀ u : List Char, s.iface.storageName.data ++ u ≠ n2.data)
    (h2 : ∀ u : List Char, n2.data ++ u ≠ s.iface.storageName.data)
    (h3 : ∀ c cs, s.iface.storageName.data = c :: cs → c ≠ '_')
    (h4 : ∀ c cs, n2.data = c :: cs → c ≠ '_') :
    (∀ k2 : String,
      ((clearSync s).2).window.sessionStorage.getItem (n2 ++ "-" ++ k2)
        = s.window.sessionStorage.getItem (n2 ++ "-" ++ k2) ∧
      (∀ key : String,
        ((removeItemSync s key).2).window.sessionStorage.getItem (n2 ++ "-" ++ k2)
          = s.window.sessionStorage.getItem (n2 ++ "-" ++ k2)) ∧
      ((deleteStorageSync s).2).window.sessionStorage.getItem (n2 ++ "-" ++ k2)
        = s.window.sessionStorage.getItem (n2 ++ "-" ++ k2)) ∧
    (((clearSync s).2).window.sessionStorage.getItem (keysArrayNameOf n2)
        = s.window.sessionStorage.getItem (keysArrayNameOf n2) ∧
      (∀ key : String,
        ((removeItemSync s key).2).window.sessionStorage.getItem (keysArrayNameOf n2)
          = s.window.sessionStorage.getItem (keysArrayNameOf n2)) ∧
      ((deleteStorageSync s).2).window.sessionStorage.getItem (keysArrayNameOf n2)
        = s.window.sessionStorage.getItem (keysArrayNameOf n2)) := by
  have hq1 : ∀ k2 k : String, (n2 ++ "-" ++ k2) ≠ keyName s.iface k := by
    intro k2 k h
    have hd := congrArg String.data h
    rw [data_dashed, show (keyName s.iface k).data
      = s.iface.storageName.data ++ '-' :: k.data from data_dashed _ _] at hd
    rcases names_prefix_of_keyName_eq hd with ⟨u, hu⟩ | ⟨u, hu⟩
    · exact h2 u hu
    · exact h1 u hu
  have hq2 : ∀ k2 : String, (n2 ++ "-" ++ k2) ≠ s.iface.keysArrayName := by
    intro k2 h
    have hd := congrArg String.data h
    rw [hn] at h
    have hd2 := congrArg String.data h
    rw [data_dashed, data_keysArrayNameOf] at hd2
    exact dashed_ne_underscore h4 k2.data _ hd2
  have hq3 : ∀ k : String, keysArrayNameOf n2 ≠ keyName s.iface k := by
    intro k h
    have hd := congrArg String.data h.symm
    rw [data_keysArrayNameOf, show (keyName s.iface k).data
      = s.iface.storageName.data ++ '-' :: k.data from data_dashed _ _] at hd
    exact dashed_ne_underscore h3 k.data _ hd
  have hq4 : keysArrayNameOf n2 ≠ s.iface.keysArrayName := by
    intro h
    rw [hn] at h
    have hd := congrArg String.data h
    rw [data_keysArrayNameOf, data_keysArrayNameOf] at hd
    simp only [List.cons.injEq, true_and] at hd
    rcases names_prefix_of_keyName_eq hd with ⟨u, hu⟩ | ⟨u, hu⟩
    · exact h2 u hu
    · exact h1 u hu
  exact ⟨fun k2 =>
      ⟨clearSync_session_frame s _ (fun k => hq1 k2 k) (hq2 k2),
       fun key => removeItemSync_session_frame s key _ (fun k => hq1 k2 k) (hq2 k2),
       deleteStorageSync_session_frame s _ (fun k => hq1 k2 k) (hq2 k2)⟩,
    ⟨clearSync_session_frame s _ hq3 hq4,
     fun key => removeItemSync_session_frame s key _ hq3 hq4,
     deleteStorageSync_session_frame s _ hq3 hq4⟩⟩

theorem c2_w_names1 : ∀ u : List Char, ("alpha" : String).data ++ u ≠ ("omega" : String).data := by
  intro u h
  have hlen := congrArg List.length h
  rw [List.length_append,
    show ("alpha" : String).data.length = 5 from rfl,
    show ("omega" : String).data.length = 5 from rfl] at hlen
  have hu : u = [] := List.length_eq_zero.mp (by omega)
  subst hu
  rw [List.append_nil] at h
  exact absurd (string_data_inj h) (by decide)

theorem c2_w_names2 : ∀ u : List Char, ("omega" : String).data ++ u ≠ ("alpha" : String).data := by
  intro u h
  have hlen := congrArg List.length h
  rw [List.length_append,
    show ("omega" : String).data.length = 5 from rfl,
    show ("alpha" : String).data.length = 5 from rfl] at hlen
  have hu : u = [] := List.length_eq_zero.mp (by omega)
  subst hu
  rw [List.append_nil] at h
  exact absurd (string_data_inj h) (by decide)

theorem c2_w_head1 : ∀ c cs, ("alpha" : String).data = c :: cs → c ≠ '_' := by
  intro c cs h
  have hc : ('a' : Char) = c := by
    have h2 := congrArg List.headI h
    rw [show List.headI ("alpha" : String).data = 'a' from rfl] at h2
    simpa using h2
  rw [← hc]
  decide

theorem c2_w_head2 : ∀ c cs, ("omega" : String).data = c :: cs → c ≠ '_' := by
  intro c cs h
  have hc : ('o' : Char) = c := by
    have h2 := congrArg List.headI h
    rw [show List.headI ("omega" : String).data = 'o' from rfl] at h2
    simpa using h2
  rw [← hc]
  decide

/-- Witness for C2 (amended): the theorem applied to a live "alpha" instance
and the unrelated "omega" namespace. -/
theorem c2_namespaces_independent_witness :
    ((clearSync (freshSt "alpha" false)).2).window.sessionStorage.getItem
        ("omega" ++ "-" ++ "x")
      = (freshSt "alpha" false).window.sessionStorage.getItem ("omega" ++ "-" ++ "x") :=
  ((c2_namespaces_independent (freshSt "alpha" false) "omega"
    (freshSt_post "alpha" false).1 c2_w_names1 c2_w_names2 c2_w_head1 c2_w_head2).1 "x").1

def c2w0 : St := { iface := newIface, window := emptyWindow }

def c2A1 : St := (initSync c2w0 { name := some "a", useCache := some false }).2

def c2B1 : St :=
  (initSync { iface := newIface, window := c2A1.window }
    { name := some "a-b", useCache := some false }).2

def c2A2 : St :=
  (setItemSync { iface := c2A1.iface, window := c2B1.window } "b-x" (JsValue.num 1)).2

def c2B2 : St :=
  (setItemSync { iface := c2B1.iface, window := c2A2.window } "x" (JsValue.num 2)).2

def c2A3 : St := (clearSync { iface := c2A2.iface, window := c2B2.window }).2

/-- Counterexample to claim C2 as stated.  The instance named "a" and the
instance named "a-b" have different names, yet the physical key of logical
key "b-x" in namespace "a" and of logical key "x" in namespace "a-b" is the
same string "a-b-x": after both instances store a value, clearing the first
instance erases the entry of the second, whose registry still lists "x". -/
theorem c2_counterexample :
    c2B2.window.sessionStorage.getItem ("a-b" ++ "-" ++ "x")
      = some (stringifyWrapped (JsValue.num 2)) ∧
    c2A3.window.sessionStorage.getItem ("a-b" ++ "-" ++ "x") = none ∧
    c2A3.window.sessionStorage.getItem (keysArrayNameOf "a-b")
      = some (strArrJson ["x"]) :=
  ⟨rfl, rfl, rfl⟩

def c1Run : St :=
  (deleteStorageSync ((setItemSync (freshSt "storage" false) "a" (JsValue.num 1)).2)).2

/-- Claim C1 (code bug).  deleteStorageSync performs the clear and sets the
deletion flag, but it calls window.localStorage.removeItem instead of
window.sessionStorage.removeItem, so the persisted registry entry is NOT
removed from the session store: after deleteStorageSync on a freshly
initialized "storage" namespace holding one key, the session store still maps
"__storage-keys-array" to the serialized empty array. -/
theorem c1_registry_entry_remains :
    c1Run.iface.isDeleted = true ∧
    c1Run.window.sessionStorage.getItem (keysArrayNameOf "storage")
      = some (strArrJson []) :=
  ⟨rfl, rfl⟩

/-- Claim C3 (amended).  On an initialized, live adapter, setItemSync followed
by getItemSync returns exactly the stored value — including null and the
top-level "undefined" — provided caching is enabled, or the value contains no
"undefined" strictly inside an array or object (cleanVal).  Without caching
the value travels through the JSON wrapper, which does not represent nested
"undefined" faithfully. -/
theorem c3_set_get_roundtrip (s : St) (keys : List String) (key : String) (v : JsValue)
    (hn : NameInv s) (hr : RegInv s keys) (hd : s.iface.isDeleted = false)
    (hk : key ≠ s.iface.keysArrayName)
    (hv : s.iface.useCache = true ∨ v = JsValue.undef ∨ cleanVal v = true) :
    (setItemSync s key v).1 = Except.ok () ∧
    (getItemSync (setItemSync s key v).2 key).1 = Except.ok v := by
  obtain ⟨hok, hn', hr', hsn', hname', hcache', hd', hregmem, hval, hkv, hls⟩ :=
    setItemSync_post s keys key v hn hr hd hk
  refine ⟨hok, ?_⟩
  by_cases hc : s.iface.useCache = true
  · exact getItemSync_cache_hit _ key v hd' (by rw [hcache', hc]) (hkv hc)
  · have hcf : s.iface.useCache = false := bool_not_true hc
    rcases hv with hv | hv
    · exact absurd hv hc
    · refine getItemSync_no_cache _ key v hd' (by rw [hcache', hcf]) ?_ hv
      rw [show keyName (setItemSync s key v).2.iface key = keyName s.iface key from by
        rw [keyName, keyName, hsn']]
      exact hval

/-- Witness for C3 (amended): storing null on a fresh cache-less adapter and
reading it back yields null. -/
theorem c3_set_get_roundtrip_witness :
    (setItemSync (freshSt "settings" false) "a" JsValue.null).1 = Except.ok () ∧
    (getItemSync (setItemSync (freshSt "settings" false) "a" JsValue.null).2 "a").1
      = Except.ok JsValue.null :=
  c3_set_get_roundtrip (freshSt "settings" false) [] "a" JsValue.null
    (freshSt_post "settings" false).1 (freshSt_post "settings" false).2.1 rfl
    (by decide) (Or.inr (Or.inr (by decide)))

def c3Run : St :=
  (setItemSync (freshSt "settings" false) "a" (JsValue.arr [JsValue.undef])).2

/-- Counterexample to claim C3 as stated: without caching, the structured-
cloneable value consisting of the one-element array holding "undefined" does
not roundtrip — JSON.stringify stores it as the array holding null, so the
subsequent get returns a value that is not deep-equal to the stored one. -/
theorem c3_counterexample :
    (getItemSync c3Run "a").1 = Except.ok (JsValue.arr [JsValue.null]) ∧
    (Except.ok (JsValue.arr [JsValue.null]) : Except Err JsValue)
      ≠ Except.ok (JsValue.arr [JsValue.undef]) :=
  ⟨rfl, by simp⟩

/-- Claim C4.  Every successful mutation on an adapter satisfying the
registry consistency invariant preserves it, and the registry evolves
append-only on set (unchanged for an existing key, appended for a new one),
by filtering on remove, and to the empty list on clear and deleteStorage, so
the persisted registry always lists exactly the keys holding a stored entry,
in insertion order. -/
theorem c4_registry_invariant_preserved (s : St) (keys : List String)
    (hn : NameInv s) (hr : RegInv s keys) :
    (∀ key v s', setItemSync s key v = (Except.ok (), s') →
      NameInv s' ∧ RegInv s' (if key ∈ keys then keys else keys ++ [key])) ∧
    (∀ key s', removeItemSync s key = (Except.ok (), s') →
      NameInv s' ∧ RegInv s' (keys.filter (fun k2 => decide (k2 ≠ key)))) ∧
    (∀ s', clearSync s = (Except.ok (), s') → NameInv s' ∧ RegInv s' []) ∧
    (∀ s', deleteStorageSync s = (Except.ok (), s') → NameInv s' ∧ RegInv s' []) := by
  refine ⟨?_, ?_, ?_, ?_⟩
  · intro key v s' h
    have hd : s.iface.isDeleted = false := by
      by_contra hne
      have ht : s.iface.isDeleted = true := by
        revert hne; cases s.iface.isDeleted <;> simp
      simp [setItemSync, ht] at h
    have hk : key ≠ s.iface.keysArrayName := by
      intro he
      simp [setItemSync, hd, he] at h
    have hs' : s' = (setItemSync s key v).2 := by rw [h]
    subst hs'
    obtain ⟨-, hn', hr', -, -, -, -, -, -, -, -⟩ := setItemSync_post s keys key v hn hr hd hk
    exact ⟨hn', hr'⟩
  · intro key s' h
    have hd : s.iface.isDeleted = false := by
      by_contra hne
      have ht : s.iface.isDeleted = true := by
        revert hne; cases s.iface.isDeleted <;> simp
      simp [removeItemSync, ht] at h
    have hs' : s' = (removeItemSync s key).2 := by rw [h]
    subst hs'
    obtain ⟨-, hn', hr', -, -, -, -, -, -⟩ := removeItemSync_post s keys key hn hr hd
    exact ⟨hn', hr'⟩
  · intro s' h
    have hd : s.iface.isDeleted = false := by
      by_contra hne
      have ht : s.iface.isDeleted = true := by
        revert hne; cases s.iface.isDeleted <;> simp
      simp [clearSync, ht] at h
    have hs' : s' = (clearSync s).2 := by rw [h]
    subst hs'
    obtain ⟨-, hn', hr', -, -, -, -, -⟩ := clearSync_post s keys hn hr hd
    exact ⟨hn', hr'⟩
  · intro s' h
    have hd : s.iface.isDeleted = false := by
      by_contra hne
      have ht : s.iface.isDeleted = true := by
        revert hne; cases s.iface.isDeleted <;> simp
      simp [deleteStorageSync, clearSync, ht] at h
    have hs' : s' = (deleteStorageSync s).2 := by rw [h]
    subst hs'
    obtain ⟨-, hn', hr', -, -, -, -⟩ := deleteStorageSync_post s keys hn hr hd
    exact ⟨hn', hr'⟩

def c4W : St := (setItemSync (freshSt "wtn" false) "a" JsValue.null).2

/-- Witness for C4: a successful set of a new key on a fresh adapter yields a
state satisfying the invariant with the appended registry. -/
theorem c4_registry_invariant_preserved_witness :
    NameInv c4W ∧ RegInv c4W (if "a" ∈ ([] : List String) then [] else [] ++ ["a"]) :=
  (c4_registry_invariant_preserved (freshSt "wtn" false) []
    (freshSt_post "wtn" false).1 (freshSt_post "wtn" false).2.1).1 "a" JsValue.null c4W rfl

/-- Claim C5.  Starting from a freshly initialized adapter, after any trace of
set and remove calls avoiding the reserved key, sizeSync returns the number
of distinct keys ever set minus those subsequently removed (the length of the
registry predicted by traceKeys), and immediately after clearSync it returns
zero. -/
theorem c5_size_counts_keys (name : String) (c : Bool) (ops : List Op)
    (hk : ∀ op ∈ ops, opKey op ≠ keysArrayNameOf name) :
    (sizeSync (runOps (freshSt name c) ops)).1
      = Except.ok (traceKeys [] ops).length ∧
    (sizeSync ((clearSync (runOps (freshSt name c) ops)).2)).1 = Except.ok 0 := by
  obtain ⟨hn0, hr0, hd0, hsn0, hkn0, -, -⟩ := freshSt_post name c
  have hk' : ∀ op ∈ ops, opKey op ≠ (freshSt name c).iface.keysArrayName := by
    intro o ho
    rw [hkn0]
    exact hk o ho
  obtain ⟨hn1, hr1, hd1, -, -⟩ := runOps_spec ops (freshSt name c) [] hn0 hr0 hd0 hk'
  constructor
  · rw [sizeSync_eq (runOps (freshSt name c) ops) (traceKeys [] ops) hr1 hd1]
  · obtain ⟨-, hn2, hr2, -, -, -, hd2, -⟩ := clearSync_post _ _ hn1 hr1 hd1
    rw [sizeSync_eq _ [] hr2 hd2]
    rfl

def c5ops : List Op :=
  [Op.set "a" (JsValue.num 1), Op.set "b" (JsValue.num 2),
   Op.set "a" (JsValue.num 3), Op.remove "b"]

/-- Witness for C5: set a, set b, set a again, remove b leaves size 1. -/
theorem c5_size_counts_keys_witness :
    (sizeSync (runOps (freshSt "n" false) c5ops)).1
      = Except.ok (traceKeys [] c5ops).length ∧
    (sizeSync ((clearSync (runOps (freshSt "n" false) c5ops)).2)).1 = Except.ok 0 :=
  c5_size_counts_keys "n" false c5ops (by decide)

/-- Claim C6.  keySync returns the registry entry at the requested position:
the keys appear in first-set order (the traceKeys prediction), any negative
or past-the-end index yields "undefined" (none) rather than an error, and
re-setting a key already in the registry leaves every position unchanged. -/
theorem c6_key_first_set_order (name : String) (c : Bool) (ops : List Op)
    (hk : ∀ op ∈ ops, opKey op ≠ keysArrayNameOf name) :
    (∀ i : Int, (keySync (runOps (freshSt name c) ops) i).1
        = Except.ok (if i < 0 then none else (traceKeys [] ops)[i.toNat]?)) ∧
    (∀ i : Int, (i < 0 ∨ (traceKeys [] ops).length ≤ i.toNat) →
        (keySync (runOps (freshSt name c) ops) i).1 = Except.ok none) ∧
    (∀ k v, k ≠ keysArrayNameOf name → k ∈ traceKeys [] ops →
      ∀ i : Int, (keySync (runOps (freshSt name c) (ops ++ [Op.set k v])) i).1
        = (keySync (runOps (freshSt name c) ops) i).1) := by
  obtain ⟨hn0, hr0, hd0, hsn0, hkn0, -, -⟩ := freshSt_post name c
  have hk' : ∀ op ∈ ops, opKey op ≠ (freshSt name c).iface.keysArrayName := by
    intro o ho
    rw [hkn0]
    exact hk o ho
  obtain ⟨hn1, hr1, hd1, -, -⟩ := runOps_spec ops (freshSt name c) [] hn0 hr0 hd0 hk'
  refine ⟨?_, ?_, ?_⟩
  · intro i
    rw [keySync_eq _ (traceKeys [] ops) i hr1 hd1]
  · intro i hi
    rw [keySync_eq _ (traceKeys [] ops) i hr1 hd1]
    by_cases hneg : i < 0
    · rw [if_pos hneg]
    · rw [if_neg hneg]
      rcases hi with hi | hi
      · exact absurd hi hneg
      · rw [List.getElem?_eq_none hi]
  · intro k v hkres hkmem i
    have hk2 : ∀ op ∈ ops ++ [Op.set k v],
        opKey op ≠ (freshSt name c).iface.keysArrayName := by
      intro o ho
      rw [hkn0]
      rcases List.mem_append.mp ho with h | h
      · exact hk o h
      · rw [List.mem_singleton] at h
        subst h
        exact hkres
    obtain ⟨hn2, hr2, hd2, -, -⟩ :=
      runOps_spec (ops ++ [Op.set k v]) (freshSt name c) [] hn0 hr0 hd0 hk2
    have htr : traceKeys [] (ops ++ [Op.set k v]) = traceKeys [] ops := by
      rw [traceKeys_append]
      simp [traceKeys, hkmem]
    rw [keySync_eq _ (traceKeys [] (ops ++ [Op.set k v])) i hr2 hd2,
      keySync_eq _ (traceKeys [] ops) i hr1 hd1, htr]

def c6ops : List Op := [Op.set "b" (JsValue.num 1), Op.set "a" (JsValue.num 2)]

/-- Witness for C6: after setting b then a, position 0 holds b. -/
theorem c6_key_first_set_order_witness :
    (keySync (runOps (freshSt "n" false) c6ops) 0).1
      = Except.ok (if (0 : Int) < 0 then none else (traceKeys [] c6ops)[(0 : Int).toNat]?) :=
  (c6_key_first_set_order "n" false c6ops (by decide)).1 0

/-- Claim C7.  On a live adapter, setItemSync with the reserved registry key
"__{name}-keys-array" fails with the reserved-key interface error and returns
the state completely unchanged: the underlying store, the persisted registry
and both cache mirrors are exactly as before. -/
theorem c7_reserved_key_rejected (s : St) (v : JsValue) (key : String)
    (hd : s.iface.isDeleted = false) (hn : NameInv s)
    (hkey : key = keysArrayNameOf s.iface.storageName) :
    setItemSync s key v =
      (Except.error (Err.interfaceError ("key '" ++ key ++ "' cannot be used.")), s) := by
  rw [setItemSync, if_neg (by simp [hd]), if_pos (by rw [hkey, hn])]

/-- Witness for C7: rejecting the reserved key of the default-named storage. -/
theorem c7_reserved_key_rejected_witness :
    setItemSync (freshSt "storage" false) "__storage-keys-array" JsValue.null =
      (Except.error (Err.interfaceError
        ("key '" ++ "__storage-keys-array" ++ "' cannot be used.")),
       freshSt "storage" false) :=
  c7_reserved_key_rejected (freshSt "storage" false) JsValue.null
    "__storage-keys-array" rfl (freshSt_post "storage" false).1 rfl

/-- Claim C8.  A successful setItemSync persists the registry only on the
first insertion of a key: for a key already in the registry the stored
registry entry is identical before and after (the write is skipped), while
for a new key the registry entry becomes the serialized appended list. -/
theorem c8_registry_written_only_on_first_insertion (s : St) (keys : List String)
    (key : String) (v : JsValue)
    (hn : NameInv s) (hr : RegInv s keys) (hd : s.iface.isDeleted = false)
    (hk : key ≠ s.iface.keysArrayName) :
    (setItemSync s key v).1 = Except.ok () ∧
    (key ∈ keys →
      (setItemSync s key v).2.window.sessionStorage.getItem s.iface.keysArrayName
        = s.window.sessionStorage.getItem s.iface.keysArrayName) ∧
    (key ∉ keys →
      (setItemSync s key v).2.window.sessionStorage.getItem s.iface.keysArrayName
        = some (strArrJson (keys ++ [key]))) := by
  obtain ⟨hok, hn', hr', hsn', hname', -, -, hregmem, -, -, -⟩ :=
    setItemSync_post s keys key v hn hr hd hk
  refine ⟨hok, hregmem, fun hnm => ?_⟩
  have hreg := hr'.reg
  rw [hname', if_neg hnm] at hreg
  exact hreg

/-- Witness for C8: on a fresh adapter the first insertion of "a" writes the
one-element registry. -/
theorem c8_registry_written_only_on_first_insertion_witness :
    (setItemSync (freshSt "x" false) "a" JsValue.null).1 = Except.ok () ∧
    ("a" ∈ ([] : List String) →
      (setItemSync (freshSt "x" false) "a" JsValue.null).2.window.sessionStorage.getItem
          (freshSt "x" false).iface.keysArrayName
        = (freshSt "x" false).window.sessionStorage.getItem
          (freshSt "x" false).iface.keysArrayName) ∧
    ("a" ∉ ([] : List String) →
      (setItemSync (freshSt "x" false) "a" JsValue.null).2.window.sessionStorage.getItem
          (freshSt "x" false).iface.keysArrayName
        = some (strArrJson ([] ++ ["a"]))) :=
  c8_registry_written_only_on_first_insertion (freshSt "x" false) [] "a" JsValue.null
    (freshSt_post "x" false).1 (freshSt_post "x" false).2.1 rfl (by decide)

/-- Claim C10.  On a live cache-less adapter, setItemSync with "undefined"
stores the wrapper with the value field dropped (the empty JSON object, the
two-brace string), getItemSync then returns "undefined", yet the key is
counted by the registry: it is a member of the new registry list, sizeSync
counts it, and some nonnegative index makes keySync return it. -/
theorem c10_set_undefined_counted (s : St) (keys : List String) (key : String)
    (hn : NameInv s) (hr : RegInv s keys) (hc : s.iface.useCache = false)
    (hd : s.iface.isDeleted = false) (hk : key ≠ s.iface.keysArrayName) :
    (setItemSync s key JsValue.undef).1 = Except.ok () ∧
    (setItemSync s key JsValue.undef).2.window.sessionStorage.getItem
      (keyName s.iface key) = some (Json.obj []) ∧
    (getItemSync (setItemSync s key JsValue.undef).2 key).1 = Except.ok JsValue.undef ∧
    key ∈ (if key ∈ keys then keys else keys ++ [key]) ∧
    RegInv (setItemSync s key JsValue.undef).2
      (if key ∈ keys then keys else keys ++ [key]) ∧
    (sizeSync (setItemSync s key JsValue.undef).2).1
      = Except.ok (if key ∈ keys then keys else keys ++ [key]).length ∧
    (∃ i : Int, 0 ≤ i ∧
      (keySync (setItemSync s key JsValue.undef).2 i).1 = Except.ok (some key)) := by
  obtain ⟨hok, hn', hr', hsn', hname', hcache', hd', -, hval, -, -⟩ :=
    setItemSync_post s keys key JsValue.undef hn hr hd hk
  have hkmem : key ∈ (if key ∈ keys then keys else keys ++ [key]) := by
    by_cases hm : key ∈ keys
    · rw [if_pos hm]; exact hm
    · rw [if_neg hm]
      exact List.mem_append.mpr (Or.inr (List.mem_singleton.mpr rfl))
  refine ⟨hok, hval, ?_, hkmem, hr', ?_, ?_⟩
  · refine getItemSync_no_cache _ key JsValue.undef hd' (by rw [hcache', hc]) ?_
      (Or.inl rfl)
    rw [show keyName (setItemSync s key JsValue.undef).2.iface key
      = keyName s.iface key from by rw [keyName, keyName, hsn']]
    exact hval
  · rw [sizeSync_eq _ _ hr' hd']
  · obtain ⟨n, hn2⟩ := List.mem_iff_getElem?.mp hkmem
    refine ⟨(n : Int), by exact_mod_cast Nat.zero_le n, ?_⟩
    rw [keySync_eq _ _ ((n : Nat) : Int) hr' hd',
      if_neg (by simp), show (((n : Nat) : Int)).toNat = n by simp]
    rw [hn2]

/-- Witness for C10: setting "undefined" under key "a" on a fresh adapter. -/
theorem c10_set_undefined_counted_witness :
    (setItemSync (freshSt "x" false) "a" JsValue.undef).1 = Except.ok () ∧
    (setItemSync (freshSt "x" false) "a" JsValue.undef).2.window.sessionStorage.getItem
      (keyName (freshSt "x" false).iface "a") = some (Json.obj []) ∧
    (getItemSync (setItemSync (freshSt "x" false) "a" JsValue.undef).2 "a").1
      = Except.ok JsValue.undef ∧
    "a" ∈ (if "a" ∈ ([] : List String) then [] else [] ++ ["a"]) ∧
    RegInv (setItemSync (freshSt "x" false) "a" JsValue.undef).2
      (if "a" ∈ ([] : List String) then [] else [] ++ ["a"]) ∧
    (sizeSync (setItemSync (freshSt "x" false) "a" JsValue.undef).2).1
      = Except.ok (if "a" ∈ ([] : List String) then [] else [] ++ ["a"]).length ∧
    (∃ i : Int, 0 ≤ i ∧
      (keySync (setItemSync (freshSt "x" false) "a" JsValue.undef).2 i).1
        = Except.ok (some "a")) :=
  c10_set_undefined_counted (freshSt "x" false) [] "a"
    (freshSt_post "x" false).1 (freshSt_post "x" false).2.1 rfl rfl (by decide)
